import Mathlib

/-!
Verification development for the tree-timers hierarchical countdown-timer core.

The definitions below are a shallow embedding of the TypeScript source:

* `src/localStorageTools.ts` — the serialization codecs (`defaultSerializer`,
  `durationSerializer`, `datetimeMaybeSerializer`);
* `src/timerUtils.ts` — the persisted `TimerData` record and storage helpers;
* `src/Timer.tsx` — the per-node evaluation pass (completion check and
  sibling-exclusion check), the start/stop/reset operations and the
  parent/child cascade callbacks;
* `src/TimerDialogs.tsx` — the `DurationInput` normalization and clamp logic;
* `src/TimerPage.tsx` — the root registry.

Durations and timestamps are modelled as integer milliseconds (luxon stores
milliseconds; the spec claims are stated at millisecond granularity).
React `useState` snapshot semantics are modelled faithfully: within one event
handler or render pass every read sees the render snapshot, queued writes are
applied afterwards and the last write to a field wins.
-/

/- ### Decimal strings

`durationSerializer.stringify` is `value.shiftTo("milliseconds").milliseconds.toString()`
and `durationSerializer.parse` is `Duration.fromMillis(parseInt(value, 10))`
(`shiftTo` only changes the unit decomposition, never the stored value, so the
model keeps plain integer milliseconds).  We embed the JavaScript decimal
integer printer (`Number.prototype.toString` on an integer) and `parseInt`. -/

/-- The decimal digit characters used by the JavaScript integer printer. -/
def digitChar : Nat → Char
  | 0 => '0'
  | 1 => '1'
  | 2 => '2'
  | 3 => '3'
  | 4 => '4'
  | 5 => '5'
  | 6 => '6'
  | 7 => '7'
  | 8 => '8'
  | _ => '9'

/-- Base-10 digits of a natural number, least significant first. -/
def natDigitsLE (n : Nat) : List Nat :=
  if _h : n < 10 then [n] else n % 10 :: natDigitsLE (n / 10)
decreasing_by exact Nat.div_lt_self (by omega) (by omega)

/-- Decimal character representation, most significant digit first. -/
def natDecimalChars (n : Nat) : List Char :=
  ((natDigitsLE n).reverse).map digitChar

/-- JavaScript decimal rendering of an integer (`Number.prototype.toString`). -/
def intDecimalString (i : Int) : String :=
  if i < 0 then ⟨'-' :: natDecimalChars i.natAbs⟩ else ⟨natDecimalChars i.natAbs⟩

/-- Numeric value of a decimal digit character. -/
def charDigit (c : Char) : Nat := c.toNat - 48

/-- Value of a big-endian digit-character list, as `parseInt` accumulates it. -/
def parseNatDigits (cs : List Char) : Nat :=
  cs.foldl (fun a c => a * 10 + charDigit c) 0

/-- The digit-consuming core of `parseInt`: take the leading run of decimal
digits; `none` (JavaScript `NaN`) when there is none. -/
def parseLeadingNat (cs : List Char) : Option Nat :=
  let ds := cs.takeWhile Char.isDigit
  if ds.isEmpty then none else some (parseNatDigits ds)

/-- Model of JavaScript `parseInt(s, 10)` on the character list: optional
sign, then leading digits; trailing garbage is ignored, no digits gives
`NaN` (`none`). -/
def parseIntChars : List Char → Option Int
  | [] => none
  | c :: cs =>
    if c = '-' then
      match parseLeadingNat cs with
      | none => none
      | some n => some (-(n : Int))
    else if c = '+' then
      match parseLeadingNat cs with
      | none => none
      | some n => some ((n : Int))
    else
      match parseLeadingNat (c :: cs) with
      | none => none
      | some n => some ((n : Int))

/-- Model of JavaScript `parseInt(s, 10)`. -/
def parseIntM (s : String) : Option Int := parseIntChars s.data

/-- `durationSerializer.stringify` (src/localStorageTools.ts:62): the
duration's total milliseconds, printed in decimal. -/
def durationStringify (d : Int) : String := intDecimalString d

/-- `durationSerializer.parse` (src/localStorageTools.ts:63):
`Duration.fromMillis(parseInt(value, 10))`, then a value-preserving
`shiftTo("hours","minutes","seconds")`; `none` models an invalid duration. -/
def durationParse (s : String) : Option Int := parseIntM s

/-- Modelled from the spec: luxon `DateTime.toISO` is external library code
(not part of this repository).  The spec relies only on it being a canonical
injective textual encoding of a timestamp that `DateTime.fromISO` parses back
exactly, at ISO-8601 (millisecond) precision; timestamps are modelled as epoch
milliseconds and the encoding as their canonical decimal rendering. -/
def isoStringify (t : Int) : String := intDecimalString t

/-- Modelled from the spec: luxon `DateTime.fromISO`, the exact inverse of
`isoStringify` on its image; `none` models an invalid DateTime. -/
def isoParse (s : String) : Option Int := parseIntM s

/-- `datetimeMaybeSerializer.stringify` (src/localStorageTools.ts:51): the
ISO rendering for a set timestamp, the literal `"undefined"` (with the JSON
quotes) for the unset value. -/
def datetimeMaybeStringify : Option Int → String
  | none => "\"undefined\""
  | some t => isoStringify t

/-- `datetimeMaybeSerializer.parse` (src/localStorageTools.ts:52): the
`"undefined"` sentinel parses to unset, anything else through `fromISO`. -/
def datetimeMaybeParse (s : String) : Option (Option Int) :=
  if s = "\"undefined\"" then some none else (isoParse s).map some

/- ### Correctness of the decimal codec -/

theorem natDigitsLE_mem_lt (n : Nat) : ∀ d ∈ natDigitsLE n, d < 10 := by
  induction n using Nat.strong_induction_on with
  | _ n ih =>
    rw [natDigitsLE]
    split
    · simpa using by omega
    · rename_i h
      intro d hd
      rcases List.mem_cons.mp hd with rfl | hd
      · omega
      · exact ih (n / 10) (Nat.div_lt_self (by omega) (by omega)) d hd

theorem natDigitsLE_ne_nil (n : Nat) : natDigitsLE n ≠ [] := by
  rw [natDigitsLE]; split <;> simp

theorem foldr_natDigitsLE (n : Nat) :
    (natDigitsLE n).foldr (fun d acc => acc * 10 + d) 0 = n := by
  induction n using Nat.strong_induction_on with
  | _ n ih =>
    rw [natDigitsLE]
    split
    · simp
    · rename_i h
      rw [List.foldr_cons, ih (n / 10) (Nat.div_lt_self (by omega) (by omega))]
      omega

theorem charDigit_digitChar : ∀ d, d < 10 → charDigit (digitChar d) = d := by decide

theorem digitChar_isDigit : ∀ d, d < 10 → (digitChar d).isDigit = true := by decide

theorem natDecimalChars_isDigit (n : Nat) :
    ∀ c ∈ natDecimalChars n, c.isDigit = true := by
  intro c hc
  rcases List.mem_map.mp (by simpa [natDecimalChars] using hc) with ⟨d, hd, rfl⟩
  exact digitChar_isDigit d (natDigitsLE_mem_lt n d hd)

theorem natDecimalChars_ne_nil (n : Nat) : natDecimalChars n ≠ [] := by
  simp [natDecimalChars, natDigitsLE_ne_nil]

theorem takeWhile_of_all {p : Char → Bool} :
    ∀ l : List Char, (∀ c ∈ l, p c = true) → l.takeWhile p = l := by
  intro l h
  induction l with
  | nil => rfl
  | cons c cs ih =>
    rw [List.takeWhile_cons, h c (by simp)]
    simpa using ih (fun x hx => h x (by simp [hx]))

theorem foldr_digit_value :
    ∀ l : List Nat, (∀ d ∈ l, d < 10) →
      l.foldr (fun d a => a * 10 + charDigit (digitChar d)) 0 =
      l.foldr (fun d a => a * 10 + d) 0 := by
  intro l h
  induction l with
  | nil => rfl
  | cons d ds ih =>
    rw [List.foldr_cons, List.foldr_cons, ih (fun x hx => h x (by simp [hx])),
      charDigit_digitChar d (h d (by simp))]

theorem parseNatDigits_natDecimalChars (n : Nat) :
    parseNatDigits (natDecimalChars n) = n := by
  rw [parseNatDigits, natDecimalChars, List.foldl_map, List.foldl_reverse,
    foldr_digit_value _ (natDigitsLE_mem_lt n), foldr_natDigitsLE]

theorem parseLeadingNat_natDecimalChars (n : Nat) :
    parseLeadingNat (natDecimalChars n) = some n := by
  rw [parseLeadingNat]
  have hall := takeWhile_of_all (natDecimalChars n) (natDecimalChars_isDigit n)
  simp only [hall]
  rw [if_neg (by simpa [List.isEmpty_iff] using natDecimalChars_ne_nil n),
    parseNatDigits_natDecimalChars]

theorem isDigit_ne_of_sign {c : Char} (h : c.isDigit = true) : c ≠ '-' ∧ c ≠ '+' := by
  constructor <;> rintro rfl <;> simp [Char.isDigit] at h

theorem parseIntM_intDecimalString (d : Int) :
    parseIntM (intDecimalString d) = some d := by
  by_cases hd : d < 0
  · have h1 : parseIntM (intDecimalString d) =
        parseIntChars ('-' :: natDecimalChars d.natAbs) := by
      rw [intDecimalString, if_pos hd]; rfl
    rw [h1, parseIntChars, if_pos rfl, parseLeadingNat_natDecimalChars]
    have h2 : -((d.natAbs : Int)) = d := by omega
    show some (-((d.natAbs : Int))) = some d
    rw [h2]
  · have h1 : parseIntM (intDecimalString d) =
        parseIntChars (natDecimalChars d.natAbs) := by
      rw [intDecimalString, if_neg hd]; rfl
    obtain ⟨c, cs, hcs⟩ : ∃ c cs, natDecimalChars d.natAbs = c :: cs := by
      rcases h : natDecimalChars d.natAbs with _ | ⟨c, cs⟩
      · exact absurd h (natDecimalChars_ne_nil _)
      · exact ⟨c, cs, rfl⟩
    have hcdig : c.isDigit = true :=
      natDecimalChars_isDigit _ c (by rw [hcs]; exact List.mem_cons_self c cs)
    obtain ⟨hne1, hne2⟩ := isDigit_ne_of_sign hcdig
    rw [h1, hcs, parseIntChars, if_neg hne1, if_neg hne2, ← hcs,
      parseLeadingNat_natDecimalChars]
    have h2 : ((d.natAbs : Int)) = d := by omega
    show some ((d.natAbs : Int)) = some d
    rw [h2]

/-- C4. Codec round trips: a whole-millisecond duration survives
`durationSerializer.stringify` followed by `durationSerializer.parse`;
a set timestamp survives `datetimeMaybeSerializer.stringify` followed by
`datetimeMaybeSerializer.parse` at ISO-8601 (millisecond) precision; and the
unset value round-trips through the literal `"undefined"` sentinel. -/
theorem codecs_round_trip :
    (∀ d : Int, durationParse (durationStringify d) = some d) ∧
    (∀ t : Int, datetimeMaybeParse (datetimeMaybeStringify (some t)) = some (some t)) ∧
    (datetimeMaybeParse (datetimeMaybeStringify none) = some none) := by
  refine ⟨fun d => parseIntM_intDecimalString d, fun t => ?_, by rfl⟩
  have hne : isoStringify t ≠ "\"undefined\"" := by
    rw [isoStringify, intDecimalString]
    have hq : ∀ l : List Char, (∀ c ∈ l, c.isDigit = true) →
        (⟨'-' :: l⟩ : String) ≠ "\"undefined\"" ∧ (⟨l⟩ : String) ≠ "\"undefined\"" := by
      intro l hl
      constructor
      · intro hcontra
        have := congrArg String.data hcontra
        simp at this
      · intro hcontra
        have hdata := congrArg String.data hcontra
        rcases l with _ | ⟨c, cs⟩
        · simp at hdata
        · have hc : c = '\"' := by
            have := congrArg (List.headD · ' ') hdata
            simpa using this
          have := hl c (by simp)
          rw [hc] at this
          simp [Char.isDigit] at this
    have := hq (natDecimalChars t.natAbs) (natDecimalChars_isDigit _)
    split
    · exact this.1
    · exact this.2
  rw [datetimeMaybeStringify, datetimeMaybeParse, if_neg hne]
  have : isoParse (isoStringify t) = some t := parseIntM_intDecimalString t
  rw [this]
  rfl

/- ### The per-node timer state and operations (src/Timer.tsx)

A `TNode` is the render-time view of one timer: the persisted fields read
through `useUUIDStore`, at their parsed types.  Times are epoch milliseconds,
durations are milliseconds.  The component's event handlers and the two
eager state corrections of the render body are embedded as functions from the
render snapshot to the post-handler state; each returns the signals it sends
to the parent (`triggerStart` / `triggerStop`) and, for the evaluation pass,
whether the notification capability fired. -/

structure TNode where
  id : String
  name : String
  totalTime : Int
  childrenIDs : List String
  childRunning : Option String
  started : Option Int
  finished : Bool
  elapsed : Int
deriving DecidableEq

/-- The explicit "none" sentinel written into `childRunning` by `stopTimer`
(src/Timer.tsx:157): a string that is no real child's id. -/
def NONE_ID : String := "__NONE__"

/-- `startTimer` (src/Timer.tsx:148-151): set `started = currentTime` and
fire `triggerStart` toward the parent (the `Bool` output). -/
def startTimer (s : TNode) (now : Int) : TNode × Bool :=
  ({ s with started := some now }, true)

/-- `stopTimer` (src/Timer.tsx:153-160): accumulate
`elapsed += currentTime − (started ?? DateTime.local())`, clear `started`,
replace a set `childRunning` by the `"__NONE__"` sentinel, and fire
`triggerStop` toward the parent.  `wallNow` is the `DateTime.local()`
fallback, which is read only when `started` is unset. -/
def stopTimer (s : TNode) (now wallNow : Int) : TNode × Bool :=
  ({ s with
      elapsed := s.elapsed + (now - (s.started.getD wallNow)),
      started := none,
      childRunning := if s.childRunning.isSome then some NONE_ID else s.childRunning },
    true)

/-- The reset button handler (src/Timer.tsx:206-212): `elapsed := 0`,
`finished := false`, and if the node was running, re-start at `currentTime`. -/
def resetTimer (s : TNode) (now : Int) : TNode :=
  { s with
      elapsed := 0,
      finished := false,
      started := if s.started.isSome then some now else s.started }

/-- The `triggerStart` callback a parent hands to the child `cid`
(src/Timer.tsx:245-250): `setChildRunning(cid)`, and if the parent itself is
not running, `startTimer()` — which fires the parent's own `triggerStart`,
continuing the cascade (the `Bool` output). -/
def parentOnChildStart (p : TNode) (cid : String) (now : Int) : TNode × Bool :=
  if p.started.isSome then
    ({ p with childRunning := some cid }, false)
  else
    ({ p with childRunning := some cid, started := some now }, true)

/-- The `triggerStop` callback a parent hands to a child
(src/Timer.tsx:251-256): `setChildRunning(undefined)`, then, if the parent is
running, `stopTimer()`.  `stopTimer` reads the render snapshot of
`childRunning`, so its conditional `"__NONE__"` write lands after (and wins
over) the `undefined` write; the `Bool` output is the stop cascade continuing
to the grandparent. -/
def parentOnChildStop (p : TNode) (now wallNow : Int) : TNode × Bool :=
  if p.started.isSome then
    ({ p with
        elapsed := p.elapsed + (now - (p.started.getD wallNow)),
        started := none,
        childRunning := if p.childRunning.isSome then some NONE_ID else none },
      true)
  else
    ({ p with childRunning := none }, false)

/-- The start cascade along the ancestor chain (child's parent first, root
last): each ancestor runs its `triggerStart` callback for the node below it;
the cascade continues upward exactly while the parent had to start itself. -/
def startCascade (now : Int) : String → List TNode → List TNode
  | _, [] => []
  | cid, p :: rest =>
    let r := parentOnChildStart p cid now
    if r.2 then r.1 :: startCascade now p.id rest else r.1 :: rest

/-- Result of one evaluation pass of a node's render body. -/
structure EvalOut where
  state : TNode
  stopSignal : Bool
  notified : Bool
deriving DecidableEq

/-- One evaluation pass of the render body (src/Timer.tsx:125-165): compute
`currentSegment` and `timeRemaining`, then apply the two eager corrections —
the completion check (`timeRemaining < 10 && started`: notify when enabled,
clear `started`, set `finished`, fire `triggerStop`) and the
sibling-exclusion check (`siblingRunning && siblingRunning !== id && started`:
accumulate `elapsed += now − started` and clear `started`).  Both checks read
the same render snapshot; `siblingRunning` is truthy exactly when it is a
nonempty string. -/
def evalNode (s : TNode) (now wallNow : Int) (siblingRunning : Option String)
    (notifyWhenFinished : Bool) : EvalOut :=
  let currentSegment : Int := match s.started with | some t => now - t | none => 0
  let timeRemaining : Int := s.totalTime - (currentSegment + s.elapsed)
  let completes : Bool := decide (timeRemaining < 10) && s.started.isSome
  let sibTruthy : Bool := match siblingRunning with
    | some r => decide (r ≠ "")
    | none => false
  let forced : Bool :=
    (sibTruthy && decide (siblingRunning ≠ some s.id)) && s.started.isSome
  { state := { s with
      started := if completes || forced then none else s.started,
      finished := if completes then true else s.finished,
      elapsed := if forced then s.elapsed + (now - (s.started.getD wallNow))
                 else s.elapsed },
    stopSignal := completes,
    notified := completes && notifyWhenFinished }

/-- One evaluation pass over a parent's direct children: every child renders
with the same tick, the same `siblingRunning = childRunning` snapshot and the
same notify flag (src/Timer.tsx:239-263). -/
def evalChildren (children : List TNode) (now wallNow : Int)
    (sib : Option String) (nf : Bool) : List TNode :=
  children.map (fun c => (evalNode c now wallNow sib nf).state)

/- ### C3: the completion check -/

/-- C3. Completion check: a running node whose `timeRemaining` drops below
the fixed 10 ms threshold is, in that same evaluation pass, marked
`finished`, has `started` cleared, notifies exactly when notifications are
enabled, and fires `triggerStop` toward the parent; the parent's
`triggerStop` handler leaves `childRunning` at `none` or at the `"__NONE__"`
sentinel (never a child id) and continues the stop cascade exactly when the
parent itself was running. -/
theorem completion_check (s : TNode) (now wallNow : Int) (sib : Option String)
    (nf : Bool) (t : Int) (p : TNode) (pnow pwall : Int)
    (hst : s.started = some t)
    (hrem : s.totalTime - ((now - t) + s.elapsed) < 10) :
    ((evalNode s now wallNow sib nf).state.finished = true) ∧
    ((evalNode s now wallNow sib nf).state.started = none) ∧
    ((evalNode s now wallNow sib nf).notified = nf) ∧
    ((evalNode s now wallNow sib nf).stopSignal = true) ∧
    ((parentOnChildStop p pnow pwall).1.childRunning = none ∨
      (parentOnChildStop p pnow pwall).1.childRunning = some NONE_ID) ∧
    ((parentOnChildStop p pnow pwall).2 = p.started.isSome) := by
  refine ⟨?_, ?_, ?_, ?_, ?_, ?_⟩
  · simp only [evalNode, hst]
    simp [hrem]
  · simp only [evalNode, hst]
    simp [hrem]
  · simp only [evalNode, hst]
    simp [hrem]
  · simp only [evalNode, hst]
    simp [hrem]
  · rw [parentOnChildStop]
    split
    · split
      · right; rfl
      · left; rfl
    · left; rfl
  · rw [parentOnChildStop]
    split <;> simp_all

/-- Witness for `completion_check` at a concrete running node 10 ms short of
its budget, with a running parent tracking a child. -/
theorem completion_check_witness :
    ((evalNode
      { id := "a", name := "x", totalTime := 1000, childrenIDs := [],
        childRunning := none, started := some 100, finished := false, elapsed := 0 }
      1095 1095 none true).state.finished = true) ∧
    ((parentOnChildStop
      { id := "p", name := "y", totalTime := 5000, childrenIDs := ["a"],
        childRunning := some "a", started := some 100, finished := false, elapsed := 0 }
      1095 1095).1.childRunning = some NONE_ID) := by
  have h := completion_check
    { id := "a", name := "x", totalTime := 1000, childrenIDs := [],
      childRunning := none, started := some 100, finished := false, elapsed := 0 }
    1095 1095 none true 100
    { id := "p", name := "y", totalTime := 5000, childrenIDs := ["a"],
      childRunning := some "a", started := some 100, finished := false, elapsed := 0 }
    1095 1095 (by rfl) (by decide)
  refine ⟨h.1, ?_⟩
  rcases h.2.2.2.2.1 with h1 | h1
  · exact absurd h1 (by decide)
  · exact h1

/- ### C6: stopping a node that is not running -/

/-- A concrete node that is not running but tracks a (stale) child id. -/
def idleNodeC6 : TNode :=
  { id := "a"
    name := "x"
    totalTime := 1000
    childrenIDs := ["b"]
    childRunning := some "b"
    started := none
    finished := false
    elapsed := 0 }

/-- C6 counterexample: invoking `stopTimer` on a node whose `started` is
unset is not a no-op — at tick time 5 with wall clock 7 it changes
`elapsed`, rewrites `childRunning` to the `"__NONE__"` sentinel, and does
fire the stop cascade toward the parent. -/
theorem stop_not_running_counterexample :
    ((stopTimer idleNodeC6 5 7).1.elapsed ≠ idleNodeC6.elapsed) ∧
    ((stopTimer idleNodeC6 5 7).1.childRunning ≠ idleNodeC6.childRunning) ∧
    ((stopTimer idleNodeC6 5 7).2 = true) := by decide

/-- C6 amended: on a node whose `started` is unset, `stopTimer` leaves
`started` unset and `finished` unchanged, but it adds `now − wallNow` to
`elapsed` (zero only when the render tick equals the wall clock read by the
`started || DateTime.local()` fallback), replaces a set `childRunning` with
the `"__NONE__"` sentinel, and always fires the stop cascade.  The reachable
entry points guard against this: the control invokes `onStop` only while
running, and a parent's `triggerStop` calls `stopTimer` only when
`started !== undefined`. -/
theorem stop_not_running_amended (s : TNode) (now wallNow : Int)
    (h : s.started = none) :
    ((stopTimer s now wallNow).1.started = none) ∧
    ((stopTimer s now wallNow).1.finished = s.finished) ∧
    ((stopTimer s now wallNow).1.elapsed = s.elapsed + (now - wallNow)) ∧
    ((stopTimer s now wallNow).1.childRunning =
      if s.childRunning.isSome then some NONE_ID else s.childRunning) ∧
    ((stopTimer s now wallNow).2 = true) := by
  simp [stopTimer, h]

/-- Witness for `stop_not_running_amended` at `idleNodeC6`. -/
theorem stop_not_running_amended_witness :
    ((stopTimer idleNodeC6 5 7).1.started = none) ∧
    ((stopTimer idleNodeC6 5 7).1.elapsed = idleNodeC6.elapsed + (5 - 7)) := by
  have h := stop_not_running_amended idleNodeC6 5 7 (by rfl)
  exact ⟨h.1, h.2.2.1⟩

/- ### C8: the reset handler -/

/-- C8. Reset: the handler always clears `elapsed` to zero and `finished` to
false; a node that was Idle or Finished (no `started`) stays Idle, while a
running node is immediately re-started with `started = now`, so the visible
run state is not interrupted. -/
theorem reset_handler (s : TNode) (now : Int) :
    ((resetTimer s now).elapsed = 0) ∧
    ((resetTimer s now).finished = false) ∧
    (s.started = none → (resetTimer s now).started = none) ∧
    (∀ t, s.started = some t → (resetTimer s now).started = some now) := by
  refine ⟨rfl, rfl, fun h => ?_, fun t h => ?_⟩
  · simp [resetTimer, h]
  · simp [resetTimer, h]

/-- Witness for `reset_handler`: an idle finished node resets to Idle, and a
running node re-starts at the tick. -/
theorem reset_handler_witness :
    ((resetTimer
      { id := "a", name := "x", totalTime := 1000, childrenIDs := [],
        childRunning := none, started := none, finished := true, elapsed := 500 }
      42).started = none) ∧
    ((resetTimer
      { id := "a", name := "x", totalTime := 1000, childrenIDs := [],
        childRunning := none, started := some 7, finished := false, elapsed := 500 }
      42).started = some 42) := by
  refine ⟨?_, ?_⟩
  · exact (reset_handler
      { id := "a", name := "x", totalTime := 1000, childrenIDs := [],
        childRunning := none, started := none, finished := true, elapsed := 500 }
      42).2.2.1 (by rfl)
  · exact (reset_handler
      { id := "a", name := "x", totalTime := 1000, childrenIDs := [],
        childRunning := none, started := some 7, finished := false, elapsed := 500 }
      42).2.2.2 7 (by rfl)

/- ### C9: downward stop propagation through the "__NONE__" sentinel -/

/-- C9. A node executing `stopTimer` while tracking a running child rewrites
`childRunning` to the `"__NONE__"` sentinel; that value is handed to every
child as `siblingRunning` and equals no real child id, so on its next
evaluation pass every child with a genuine id ends with `started` unset — a
child that was still running accrues `now − started` into `elapsed` as it is
force-stopped.  Hence the node has no started child one (a fortiori two)
evaluation passes after its own Stop. -/
theorem stop_sentinel_force_stops (s : TNode) (now wallNow : Int) (c : String)
    (hcr : s.childRunning = some c) :
    ((stopTimer s now wallNow).1.childRunning = some NONE_ID) ∧
    (∀ (ch : TNode) (now2 wall2 : Int) (nf : Bool), ch.id ≠ NONE_ID →
      ((evalNode ch now2 wall2 ((stopTimer s now wallNow).1.childRunning) nf).state.started
          = none) ∧
      (∀ t, ch.started = some t →
        (evalNode ch now2 wall2 ((stopTimer s now wallNow).1.childRunning) nf).state.elapsed
          = ch.elapsed + (now2 - t))) := by
  have hsent : (stopTimer s now wallNow).1.childRunning = some NONE_ID := by
    simp [stopTimer, hcr]
  refine ⟨hsent, fun ch now2 wall2 nf hid => ⟨?_, fun t hst => ?_⟩⟩
  · rw [hsent]
    rcases h : ch.started with _ | t
    · simp [evalNode, h]
    · have hne : ¬(("__NONE__" : String) = ch.id) := fun hcontra =>
        hid (by simpa [NONE_ID] using hcontra.symm)
      simp [evalNode, h, NONE_ID, hne]
  · rw [hsent]
    have hne : ¬(("__NONE__" : String) = ch.id) := fun hcontra =>
      hid (by simpa [NONE_ID] using hcontra.symm)
    simp [evalNode, hst, NONE_ID, hne]

/-- Witness for `stop_sentinel_force_stops`: a parent tracking child "b"
stops; the still-running child "b" is force-stopped on its next pass. -/
theorem stop_sentinel_force_stops_witness :
    ((stopTimer
      { id := "p", name := "y", totalTime := 5000, childrenIDs := ["b"],
        childRunning := some "b", started := some 100, finished := false, elapsed := 0 }
      200 200).1.childRunning = some NONE_ID) ∧
    ((evalNode
      { id := "b", name := "z", totalTime := 4000, childrenIDs := [],
        childRunning := none, started := some 100, finished := false, elapsed := 0 }
      300 300
      ((stopTimer
        { id := "p", name := "y", totalTime := 5000, childrenIDs := ["b"],
          childRunning := some "b", started := some 100, finished := false, elapsed := 0 }
        200 200).1.childRunning)
      false).state.started = none) := by
  have h := stop_sentinel_force_stops
    { id := "p", name := "y", totalTime := 5000, childrenIDs := ["b"],
      childRunning := some "b", started := some 100, finished := false, elapsed := 0 }
    200 200 "b" (by rfl)
  exact ⟨h.1, (h.2
    { id := "b", name := "z", totalTime := 4000, childrenIDs := [],
      childRunning := none, started := some 100, finished := false, elapsed := 0 }
    300 300 false (by decide)).1⟩

/- ### C1: sibling exclusivity -/

theorem evalNode_forced_stop (c : TNode) (now wallNow : Int) (r : String)
    (nf : Bool) (hr : r ≠ "") (hne : r ≠ c.id) (t : Int) (hst : c.started = some t) :
    ((evalNode c now wallNow (some r) nf).state.started = none) ∧
    ((evalNode c now wallNow (some r) nf).state.elapsed = c.elapsed + (now - t)) := by
  have hne2 : ¬(r = c.id) := hne
  constructor <;> simp [evalNode, hst, hr, hne2]

theorem evalNode_not_authorized (c : TNode) (now wallNow : Int) (r : String)
    (nf : Bool) (hr : r ≠ "") (hne : r ≠ c.id) :
    (evalNode c now wallNow (some r) nf).state.started = none := by
  rcases h : c.started with _ | t
  · simp [evalNode, h]
  · exact (evalNode_forced_stop c now wallNow r nf hr hne t h).1

theorem countP_id_le_one (r : String) :
    ∀ children : List TNode, (children.map TNode.id).Nodup →
      children.countP (fun c => decide (c.id = r)) ≤ 1 := by
  intro children
  induction children with
  | nil => simp
  | cons c cs ih =>
    intro hnodup
    rw [List.map_cons, List.nodup_cons] at hnodup
    by_cases h : c.id = r
    · rw [List.countP_cons_of_pos _ _ (by simpa using h)]
      have hzero : cs.countP (fun c => decide (c.id = r)) = 0 := by
        rw [List.countP_eq_zero]
        intro a ha hcontra
        exact hnodup.1 (by
          rw [List.mem_map]
          exact ⟨a, ha, by rw [h]; simpa using hcontra⟩)
      omega
    · rw [List.countP_cons_of_neg _ _ (by simpa using h)]
      exact ih hnodup.2

/-- C1. Sibling exclusivity: when a parent's `childRunning` names an
authorized sibling `r` (truthy, i.e. nonempty), one evaluation pass over its
direct children — each rendered with `siblingRunning = r` — leaves at most
one child with `started` set (the children's ids being distinct); and any
child that sees a set `siblingRunning` differing from its own id while its
own `started` is set accumulates `elapsed += now − started` and clears
`started` in that same evaluation. -/
theorem sibling_exclusivity (children : List TNode) (now wallNow : Int)
    (r : String) (nf : Bool) (hr : r ≠ "")
    (hnodup : (children.map TNode.id).Nodup) :
    ((evalChildren children now wallNow (some r) nf).countP
        (fun c => c.started.isSome) ≤ 1) ∧
    (∀ c t, c.started = some t → r ≠ c.id →
      ((evalNode c now wallNow (some r) nf).state.elapsed = c.elapsed + (now - t)) ∧
      ((evalNode c now wallNow (some r) nf).state.started = none)) := by
  constructor
  · rw [evalChildren, List.countP_map]
    have h1 : children.countP
        ((fun c => c.started.isSome) ∘ fun c => (evalNode c now wallNow (some r) nf).state)
        ≤ children.countP (fun c => decide (c.id = r)) := by
      apply List.countP_mono_left
      intro c _ hc
      by_contra hne
      have hne2 : r ≠ c.id := fun h => hne (by simp [h])
      rw [Function.comp_apply,
        evalNode_not_authorized c now wallNow r nf hr hne2] at hc
      simp at hc
    exact le_trans h1 (countP_id_le_one r children hnodup)
  · intro c t hst hne
    exact ⟨(evalNode_forced_stop c now wallNow r nf hr hne t hst).2,
      (evalNode_forced_stop c now wallNow r nf hr hne t hst).1⟩

/-- Witness for `sibling_exclusivity`: two distinct children, both started,
evaluated under authorized sibling "b": at most one stays started. -/
theorem sibling_exclusivity_witness :
    (evalChildren
      [{ id := "a", name := "x", totalTime := 9000, childrenIDs := [],
         childRunning := none, started := some 100, finished := false, elapsed := 0 },
       { id := "b", name := "y", totalTime := 9000, childrenIDs := [],
         childRunning := none, started := some 150, finished := false, elapsed := 0 }]
      200 200 (some "b") false).countP (fun c => c.started.isSome) ≤ 1 :=
  (sibling_exclusivity
    [{ id := "a", name := "x", totalTime := 9000, childrenIDs := [],
       childRunning := none, started := some 100, finished := false, elapsed := 0 },
     { id := "b", name := "y", totalTime := 9000, childrenIDs := [],
       childRunning := none, started := some 150, finished := false, elapsed := 0 }]
    200 200 "b" false (by decide) (by decide)).1

/- ### C2: the start cascade -/

theorem startCascade_head (now : Int) (cid : String) (p : TNode) (rest : List TNode) :
    ∃ tl, startCascade now cid (p :: rest) =
      (parentOnChildStart p cid now).1 :: tl := by
  rw [startCascade]
  by_cases h : (parentOnChildStart p cid now).2
  · exact ⟨startCascade now p.id rest, by simp [h]⟩
  · exact ⟨rest, by simp [h]⟩

theorem parentOnChildStart_childRunning (p : TNode) (cid : String) (now : Int) :
    (parentOnChildStart p cid now).1.childRunning = some cid := by
  rw [parentOnChildStart]
  split <;> rfl

theorem startCascade_started (now : Int) :
    ∀ (anc : List TNode) (cid : String),
      anc.Pairwise (fun a b => a.started.isSome = true → b.started.isSome = true) →
      List.Forall₂ (fun p q => q.started.isSome = true ∧
        (p.started = none → q.started = some now)) anc (startCascade now cid anc) := by
  intro anc
  induction anc with
  | nil => intro cid _; exact List.Forall₂.nil
  | cons p rest ih =>
    intro cid hpw
    rw [List.pairwise_cons] at hpw
    rw [startCascade]
    by_cases hp : p.started.isSome
    · have hcont : (parentOnChildStart p cid now).2 = false := by
        rw [parentOnChildStart, if_pos hp]
      have hstate : (parentOnChildStart p cid now).1 =
          { p with childRunning := some cid } := by
        rw [parentOnChildStart, if_pos hp]
      simp only [hcont, Bool.false_eq_true, if_false]
      refine List.Forall₂.cons ⟨by simpa [hstate] using hp, fun hnone => ?_⟩ ?_
      · rw [hnone] at hp; simp at hp
      · refine List.forall₂_same.mpr fun q hq => ⟨hpw.1 q hq hp, fun hnone => ?_⟩
        have := hpw.1 q hq hp
        rw [hnone] at this; simp at this
    · have hcont : (parentOnChildStart p cid now).2 = true := by
        rw [parentOnChildStart, if_neg hp]
      have hstate : (parentOnChildStart p cid now).1 =
          { p with childRunning := some cid, started := some now } := by
        rw [parentOnChildStart, if_neg hp]
      simp only [hcont, if_true]
      exact List.Forall₂.cons ⟨by simp [hstate], fun _ => by simp [hstate]⟩
        (ih p.id hpw.2)

/-- C2. Running cascades upward: `startTimer` on a node sets
`started = now` and fires `triggerStart`; along the ancestor chain
(immediate parent first, root last) each ancestor records the node below it
in `childRunning` — in particular the immediate parent's `childRunning`
becomes the started node's id — and every ancestor that was Idle transitions
to Running with the same `started = now` timestamp; provided the pre-state
already satisfied the upward-closure invariant I3 on the chain (every
ancestor of a running ancestor is running), after the cascade every ancestor
on the path to the root has `started` set, so the freshly started leaf has a
fully running ancestor path. -/
theorem running_cascades_upward (n : TNode) (now : Int) (anc : List TNode)
    (hclosed : anc.Pairwise (fun a b => a.started.isSome = true → b.started.isSome = true)) :
    ((startTimer n now).1.started = some now) ∧
    ((startTimer n now).2 = true) ∧
    (∀ p rest, anc = p :: rest → ∃ tl, startCascade now n.id anc =
      { p with childRunning := some n.id, started := p.started } :: tl ∨
      startCascade now n.id anc =
      { p with childRunning := some n.id, started := some now } :: tl) ∧
    (List.Forall₂ (fun p q => q.started.isSome = true ∧
      (p.started = none → q.started = some now)) anc (startCascade now n.id anc)) := by
  refine ⟨rfl, rfl, ?_, startCascade_started now anc n.id hclosed⟩
  intro p rest hanc
  subst hanc
  obtain ⟨tl, htl⟩ := startCascade_head now n.id p rest
  refine ⟨tl, ?_⟩
  rw [htl, parentOnChildStart]
  by_cases hp : p.started.isSome
  · left
    rw [if_pos hp]
  · right
    rw [if_neg hp]

/-- Witness for `running_cascades_upward`: node "n" starts under an idle
parent whose own parent is already running; after the cascade both ancestors
are running and the idle parent picked up `started = 500`. -/
theorem running_cascades_upward_witness :
    List.Forall₂ (fun (p q : TNode) => q.started.isSome = true ∧
      (p.started = none → q.started = some 500))
      [{ id := "p1", name := "x", totalTime := 9000, childrenIDs := ["n"],
         childRunning := none, started := none, finished := false, elapsed := 0 },
       { id := "p2", name := "y", totalTime := 9000, childrenIDs := ["p1"],
         childRunning := some "p1", started := some 100, finished := false, elapsed := 0 }]
      (startCascade 500 "n"
        [{ id := "p1", name := "x", totalTime := 9000, childrenIDs := ["n"],
           childRunning := none, started := none, finished := false, elapsed := 0 },
         { id := "p2", name := "y", totalTime := 9000, childrenIDs := ["p1"],
           childRunning := some "p1", started := some 100, finished := false, elapsed := 0 }]) :=
  (running_cascades_upward
    { id := "n", name := "z", totalTime := 1000, childrenIDs := [],
      childRunning := none, started := none, finished := false, elapsed := 0 }
    500
    [{ id := "p1", name := "x", totalTime := 9000, childrenIDs := ["n"],
       childRunning := none, started := none, finished := false, elapsed := 0 },
     { id := "p2", name := "y", totalTime := 9000, childrenIDs := ["p1"],
       childRunning := some "p1", started := some 100, finished := false, elapsed := 0 }]
    (by decide)).2.2.2

/- ### C7: deletion and the persistence frame (src/Timer.tsx, timerUtils.ts)

The store is keyed per node id; each node's persisted keys are the eight of
the key scheme (`name`, `totalTime`, `parentID`, `childrenIDs`,
`childRunning`, `started`, `finished`, `elapsed`).  An absent key is `none`
(reads fall back to typed defaults).  `saveTimer` writes the first four;
the runtime keys appear when the component first writes them. -/

structure NodeRec where
  name : Option String
  totalTime : Option Int
  parentID : Option String
  childrenIDs : Option (List String)
  childRunning : Option (Option String)
  started : Option (Option Int)
  finished : Option Bool
  elapsed : Option Int
deriving DecidableEq

/-- The whole key-value store: per-id records plus the `root-timers` list. -/
structure TimerStore where
  recs : String → NodeRec
  rootTimers : Option (List String)

/-- `clearSelf` (src/Timer.tsx:115-123): `removeItem` on exactly the seven
`useUUIDStore` keys of this node — `name`, `totalTime`, `childrenIDs`,
`childRunning`, `started`, `finished`, `elapsed`.  The `parentID` key,
written by `saveTimer`, has no clear call and survives. -/
def clearSelfStore (st : TimerStore) (nid : String) : TimerStore :=
  { st with recs := fun k =>
      if k = nid then
        { st.recs k with
            name := none, totalTime := none, childrenIDs := none,
            childRunning := none, started := none, finished := none,
            elapsed := none }
      else st.recs k }

/-- The delete-button handler for child `cid` under parent `pid`
(src/Timer.tsx:228-231 with the `onDelete` of 257-259): `clearSelf()` on the
child, then the parent filters `cid` out of its `childrenIDs` snapshot. -/
def deleteChildStore (st : TimerStore) (pid cid : String) : TimerStore :=
  let st1 := clearSelfStore st cid
  { st1 with recs := fun k =>
      if k = pid then
        { st1.recs k with
            childrenIDs := some (((st.recs pid).childrenIDs.getD []).filter
              (fun x => !(x = cid))) }
      else st1.recs k }

/-- Deleting a root timer (TimerPage's `onDelete`): `clearSelf()` on the
node, then the root registry filters the id out. -/
def deleteRootStore (st : TimerStore) (cid : String) : TimerStore :=
  let st1 := clearSelfStore st cid
  { st1 with rootTimers := some ((st.rootTimers.getD []).filter
      (fun x => !(x = cid))) }

/-- A concrete store: parent "p" owns child "c"; "c" has all eight keys. -/
def sampleStoreC7 : TimerStore :=
  { recs := fun k =>
      if k = "p" then
        { name := some "Work", totalTime := some 3600000, parentID := some "root",
          childrenIDs := some ["c"], childRunning := some (some "c"),
          started := some (some 100), finished := some false, elapsed := some 0 }
      else if k = "c" then
        { name := some "Email", totalTime := some 1200000, parentID := some "p",
          childrenIDs := some [], childRunning := some none,
          started := some none, finished := some false, elapsed := some 250 }
      else
        { name := none, totalTime := none, parentID := none, childrenIDs := none,
          childRunning := none, started := none, finished := none, elapsed := none }
    rootTimers := some ["p"] }

/-- C7 counterexample: deleting "c" does not erase all of its persisted
fields — the `<id>-parentID` key written at creation survives the delete,
contradicting the claim that every persisted field of the node is erased. -/
theorem delete_erases_all_counterexample :
    ((deleteChildStore sampleStoreC7 "p" "c").recs "c").parentID = some "p" := by
  decide

/-- C7 amended: `delete(id)` removes `id` from its owner's `childrenIDs`
(resp. the root registry) and erases the node's `name`, `totalTime`,
`childrenIDs`, `childRunning`, `started`, `finished` and `elapsed` keys, but
leaves the node's `parentID` key in the store; every persisted field of
every other node — in particular of every descendant of the deleted node —
is unchanged (the owner changing only its `childrenIDs`). -/
theorem delete_frame_amended (st : TimerStore) (pid cid : String)
    (hne : pid ≠ cid) :
    (((deleteChildStore st pid cid).recs cid) =
      { st.recs cid with
          name := none, totalTime := none, childrenIDs := none,
          childRunning := none, started := none, finished := none,
          elapsed := none }) ∧
    (((deleteChildStore st pid cid).recs cid).parentID = (st.recs cid).parentID) ∧
    (((deleteChildStore st pid cid).recs pid) =
      { st.recs pid with
          childrenIDs := some (((st.recs pid).childrenIDs.getD []).filter
            (fun x => !(x = cid))) }) ∧
    (cid ∉ ((deleteChildStore st pid cid).recs pid).childrenIDs.getD []) ∧
    (∀ k, k ≠ cid → k ≠ pid → (deleteChildStore st pid cid).recs k = st.recs k) ∧
    ((deleteChildStore st pid cid).rootTimers = st.rootTimers) ∧
    (∀ k, k ≠ cid → (deleteRootStore st cid).recs k = st.recs k) ∧
    (cid ∉ (deleteRootStore st cid).rootTimers.getD []) := by
  have hcid : cid ≠ pid := fun h => hne h.symm
  refine ⟨?_, ?_, ?_, ?_, ?_, ?_, ?_, ?_⟩
  · simp [deleteChildStore, clearSelfStore, hcid]
  · simp [deleteChildStore, clearSelfStore, hcid]
  · simp [deleteChildStore, clearSelfStore, hne]
  · simp [deleteChildStore, clearSelfStore, hne, List.mem_filter]
  · intro k hk1 hk2
    simp [deleteChildStore, clearSelfStore, hk1, hk2]
  · rfl
  · intro k hk
    simp [deleteRootStore, clearSelfStore, hk]
  · simp [deleteRootStore, clearSelfStore, List.mem_filter]

/-- Witness for `delete_frame_amended` at the concrete store. -/
theorem delete_frame_amended_witness :
    (((deleteChildStore sampleStoreC7 "p" "c").recs "c").name = none) ∧
    ("c" ∉ ((deleteChildStore sampleStoreC7 "p" "c").recs "p").childrenIDs.getD []) := by
  have h := delete_frame_amended sampleStoreC7 "p" "c" (by decide)
  exact ⟨by rw [h.1], h.2.2.2.1⟩

/- ### C5: the budget cap at child creation (src/TimerDialogs.tsx, Timer.tsx)

`DurationInput` keeps three numeric fields (`hours`, `minutes`, `seconds`)
fed by `parseInt`; each render pass normalizes them and clamps the total
against `maxDuration` (the parent's `unallocatedTime`).  Field values are
JavaScript numbers, modelled as rationals; a committed form value is a
render fixpoint — React re-renders after every `set*` until no write fires,
and only then can the user press Create. -/

structure DIFields where
  hours : ℚ
  minutes : ℚ
  seconds : ℚ
deriving DecidableEq

/-- `Duration.fromObject({hours, minutes, seconds})` in milliseconds. -/
def diDurationMs (f : DIFields) : ℚ :=
  (f.hours * 3600 + f.minutes * 60 + f.seconds) * 1000

/-- luxon `shiftTo("hours","minutes","seconds")` of a duration of `M`
milliseconds: whole hours, whole minutes, fractional seconds, components
truncated toward zero so that they recombine exactly to `M`. -/
def shiftToHMS (M : ℚ) : DIFields :=
  if M < 0 then
    let h : ℤ := ⌊-M / 3600000⌋
    let r1 : ℚ := -M - (h : ℚ) * 3600000
    let m : ℤ := ⌊r1 / 60000⌋
    let r2 : ℚ := r1 - (m : ℚ) * 60000
    ⟨-(h : ℚ), -(m : ℚ), -(r2 / 1000)⟩
  else
    let h : ℤ := ⌊M / 3600000⌋
    let r1 : ℚ := M - (h : ℚ) * 3600000
    let m : ℤ := ⌊r1 / 60000⌋
    let r2 : ℚ := r1 - (m : ℚ) * 60000
    ⟨(h : ℚ), (m : ℚ), r2 / 1000⟩

/-- One render pass of `DurationInput` (src/TimerDialogs.tsx:112-161) under
React snapshot semantics: every condition and every written value is
computed from the snapshot `st`; writes land in program order, the last
write to a field winning.  The passes are: seconds carry/borrow, minutes
carry/borrow, hours floor at zero, then the clamp — when
`availableDuration = maxD − current` is negative all three fields are
overwritten with `shiftToHMS` of `availableDuration + current = maxD`. -/
def durationInputPass (st : DIFields) (maxD : Option ℚ) : DIFields :=
  let h := st.hours
  let m := st.minutes
  let s := st.seconds
  let current := diDurationMs st
  let s1 : ℚ :=
    if s > 59 then s - 60
    else if s < 0 then (if m > 0 then s + 60 else 0)
    else s
  let m1 : ℚ :=
    if s > 59 then m + 1
    else if s < 0 then (if m > 0 then m - 1 else m)
    else m
  let m2 : ℚ :=
    if m > 59 then m - 60
    else if m < 0 then (if h > 0 then m + 60 else 0)
    else m1
  let h1 : ℚ :=
    if m > 59 then h + 1
    else if m < 0 then (if h > 0 then h - 1 else h)
    else h
  let h2 : ℚ := if h < 0 then 0 else h1
  match maxD with
  | some M => if M - current < 0 then shiftToHMS M else ⟨h2, m2, s1⟩
  | none => ⟨h2, m2, s1⟩

/-- `childrenTime` (src/Timer.tsx:131-133): the reduce over the direct
children's persisted `totalTime`. -/
def childrenTimeQ (children : List ℚ) : ℚ := children.foldl (· + ·) 0

/-- `unallocatedTime` (src/Timer.tsx:135). -/
def unallocatedTimeQ (totalTime : ℚ) (children : List ℚ) : ℚ :=
  totalTime - childrenTimeQ children

/-- `addTimer` (src/Timer.tsx:108-111): the new child's `totalTime` joins
the parent's children. -/
def addTimerQ (children : List ℚ) (d : ℚ) : List ℚ := children ++ [d]

theorem diDurationMs_shiftToHMS (M : ℚ) : diDurationMs (shiftToHMS M) = M := by
  rw [shiftToHMS]
  split
  · simp only [diDurationMs]
    ring
  · simp only [diDurationMs]
    ring

theorem childrenTimeQ_append (children : List ℚ) (d : ℚ) :
    childrenTimeQ (children ++ [d]) = childrenTimeQ children + d := by
  simp [childrenTimeQ, List.foldl_append]

/-- At a render fixpoint of `DurationInput` the committed duration lies in
`[0, maxD]`. -/
theorem durationInputPass_fixpoint_bounds (st : DIFields) (M : ℚ)
    (hfix : durationInputPass st (some M) = st) :
    0 ≤ diDurationMs st ∧ diDurationMs st ≤ M := by
  obtain ⟨H, Mi, S⟩ := st
  simp only [durationInputPass] at hfix
  by_cases hclamp : M - diDurationMs ⟨H, Mi, S⟩ < 0
  · exfalso
    rw [if_pos hclamp] at hfix
    have hM := diDurationMs_shiftToHMS M
    rw [hfix] at hM
    rw [hM] at hclamp
    simp at hclamp
  · rw [if_neg hclamp] at hfix
    have hle : diDurationMs ⟨H, Mi, S⟩ ≤ M := by
      have := not_lt.mp hclamp
      linarith
    refine ⟨?_, hle⟩
    simp only [diDurationMs]
    split_ifs at hfix <;>
      rw [DIFields.mk.injEq] at hfix <;>
      obtain ⟨h1, h2, h3⟩ := hfix <;>
      linarith

/-- C5. Budget cap at creation: the duration committed by the creation form
is a render fixpoint of `DurationInput` under
`maxDuration = unallocatedTime`; it is clamped into
`[0, unallocatedTime]`, so immediately after `addTimer` appends the new
child, the sum of the direct children's `totalTime` is at most the parent's
`totalTime`. -/
theorem budget_cap_on_creation (totalTime : ℚ) (children : List ℚ) (st : DIFields)
    (hfix : durationInputPass st (some (unallocatedTimeQ totalTime children)) = st) :
    (0 ≤ diDurationMs st) ∧
    (diDurationMs st ≤ unallocatedTimeQ totalTime children) ∧
    (childrenTimeQ (addTimerQ children (diDurationMs st)) ≤ totalTime) := by
  obtain ⟨h0, hle⟩ := durationInputPass_fixpoint_bounds st _ hfix
  refine ⟨h0, hle, ?_⟩
  rw [addTimerQ, childrenTimeQ_append]
  rw [unallocatedTimeQ] at hle
  linarith

/-- Witness for `budget_cap_on_creation`: a 20-minute child joins a
one-hour parent already carrying a 20-minute child. -/
theorem budget_cap_on_creation_witness :
    childrenTimeQ (addTimerQ [1200000] (diDurationMs ⟨0, 20, 0⟩)) ≤ 3600000 :=
  (budget_cap_on_creation 3600000 [1200000] ⟨0, 20, 0⟩ (by
    simp only [durationInputPass, unallocatedTimeQ, childrenTimeQ, diDurationMs,
      List.foldl_cons, List.foldl_nil]
    norm_num)).2.2

/- ### C10: the default serializer on strings (src/localStorageTools.ts:39-42)

`defaultSerializer.stringify` wraps a string value in raw double quotes with
no escaping; `defaultSerializer.parse` is the ECMAScript built-in
`JSON.parse`.  The built-in is external code, so its string-literal grammar
is embedded below: an opening quote, then characters until the closing
quote, where a backslash starts an escape sequence, raw control characters
below U+0020 are rejected, and any input left over after the closing quote
is a parse error.  (The `\uXXXX` escape is omitted: no input in scope
contains it, and the claims never exercise it.) -/

/-- The double-quote character U+0022. -/
def quoteChar : Char := Char.ofNat 34

/-- The backslash character U+005C. -/
def backslashChar : Char := Char.ofNat 92

/-- The JSON single-character escapes. -/
def jsonEscChar (c : Char) : Option Char :=
  if c = quoteChar then some quoteChar
  else if c = backslashChar then some backslashChar
  else if c = '/' then some '/'
  else if c = 'b' then some (Char.ofNat 8)
  else if c = 'f' then some (Char.ofNat 12)
  else if c = 'n' then some (Char.ofNat 10)
  else if c = 'r' then some (Char.ofNat 13)
  else if c = 't' then some (Char.ofNat 9)
  else none

/-- Scan a JSON string body (the part after the opening quote): returns the
decoded content and the input remaining after the closing quote. -/
def jsonStringScan : List Char → Option (List Char × List Char)
  | [] => none
  | c :: cs =>
    if c = quoteChar then some ([], cs)
    else if c = backslashChar then
      match cs with
      | [] => none
      | e :: cs2 =>
        match jsonEscChar e with
        | some d => (jsonStringScan cs2).map (fun p => (d :: p.1, p.2))
        | none => none
    else if c.toNat < 32 then none
    else (jsonStringScan cs).map (fun p => (c :: p.1, p.2))

/-- `defaultSerializer.stringify` on a string value: a raw quote, the
characters of the string unescaped, a raw quote. -/
def defaultStringifyStr (s : String) : String :=
  ⟨quoteChar :: (s.data ++ [quoteChar])⟩

/-- `defaultSerializer.parse` (`JSON.parse`) restricted to string literals:
the input must begin with a quote and the scan must consume the whole
input. -/
def jsonParseStringLit (s : String) : Option String :=
  match s.data with
  | [] => none
  | c :: rest =>
    if c = quoteChar then
      match jsonStringScan rest with
      | some (content, []) => some ⟨content⟩
      | some (_, _ :: _) => none
      | none => none
    else none

theorem jsonStringScan_clean :
    ∀ (l rest : List Char),
      (∀ c ∈ l, c ≠ quoteChar ∧ c ≠ backslashChar ∧ 32 ≤ c.toNat) →
      jsonStringScan (l ++ quoteChar :: rest) = some (l, rest) := by
  intro l rest h
  induction l with
  | nil =>
    rw [List.nil_append, jsonStringScan.eq_def]
    dsimp only
    rw [if_pos rfl]
  | cons c cs ih =>
    obtain ⟨hq, hb, hc⟩ := h c (by simp)
    rw [List.cons_append, jsonStringScan.eq_def]
    dsimp only
    rw [if_neg hq, if_neg hb, if_neg (show ¬(c.toNat < 32) by omega),
      ih (fun x hx => h x (by simp [hx]))]
    rfl

/-- C10 counterexample: the claim promises a faithful round trip for every
string with no double quote, but the single-backslash string (quote-free)
does not survive: `stringify` produces `"\"` whose lone backslash starts an
escape that swallows the closing quote, so `JSON.parse` fails. -/
theorem default_serializer_counterexample :
    ((∀ c ∈ (⟨[backslashChar]⟩ : String).data, c ≠ quoteChar) ∧
      jsonParseStringLit (defaultStringifyStr ⟨[backslashChar]⟩) ≠
        some (⟨[backslashChar]⟩ : String)) := by
  constructor
  · intro c hc
    simp only [List.mem_singleton] at hc
    subst hc
    decide
  · decide

/-- C10 amended: `defaultSerializer.stringify` wraps a string in raw double
quotes without escaping, so `parse(stringify(s)) = s` for every string with
no double quote, no backslash, and no control character below U+0020; a
string containing a double quote (and likewise one containing a backslash)
does not round-trip. -/
theorem default_serializer_amended :
    (∀ s : String,
      (∀ c ∈ s.data, c ≠ quoteChar ∧ c ≠ backslashChar ∧ 32 ≤ c.toNat) →
      jsonParseStringLit (defaultStringifyStr s) = some s) ∧
    (jsonParseStringLit (defaultStringifyStr ⟨['a', quoteChar, 'b']⟩) ≠
      some (⟨['a', quoteChar, 'b']⟩ : String)) ∧
    (jsonParseStringLit (defaultStringifyStr ⟨[backslashChar]⟩) ≠
      some (⟨[backslashChar]⟩ : String)) := by
  refine ⟨fun s h => ?_, by decide, by decide⟩
  obtain ⟨data⟩ := s
  rw [defaultStringifyStr]
  rw [jsonParseStringLit]
  simp only [if_pos rfl]
  rw [jsonStringScan_clean data [] h]
  simp

/-- Witness for `default_serializer_amended` on the clean string "abc". -/
theorem default_serializer_amended_witness :
    jsonParseStringLit (defaultStringifyStr "abc") = some "abc" :=
  default_serializer_amended.1 "abc" (by decide)
